import Mathlib

/-!
A verification development for a small Go reverse proxy with a pluggable
middleware pipeline.  Go strings are embedded as byte lists (`List Nat`,
each element < 256), matching Go's byte-slice view of strings.  The
request-handling decisions of each pipeline stage are embedded as pure
decision functions; a runtime panic (index out of range) is embedded as
`Option.none`.
-/

/-- Byte list of an ASCII string literal (Go strings are byte slices). -/
def strBytes (s : String) : List Nat := s.data.map Char.toNat

/-- Go `strings.Split(s, sep)` for a one-byte separator: splits around every
occurrence of `sep`; the result is never empty, and `Split("", sep) = [""]`. -/
def splitGo (sep : Nat) : List Nat → List (List Nat)
  | [] => [[]]
  | c :: rest =>
    match splitGo sep rest with
    | [] => [[]]
    | t :: ts => if c = sep then [] :: t :: ts else (c :: t) :: ts

/-- Byte of the base64 standard alphabet at index `n` (for `n < 64`). -/
def encB (n : Nat) : Nat :=
  if n < 26 then n + 65
  else if n < 52 then n + 71
  else if n < 62 then n - 4
  else if n = 62 then 43
  else 47

/-- Index of byte `c` in the base64 standard alphabet, `none` for bytes
outside the alphabet (including the padding byte `=` = 61). -/
def decB (c : Nat) : Option Nat :=
  if 65 ≤ c ∧ c ≤ 90 then some (c - 65)
  else if 97 ≤ c ∧ c ≤ 122 then some (c - 71)
  else if 48 ≤ c ∧ c ≤ 57 then some (c + 4)
  else if c = 43 then some 62
  else if c = 47 then some 63
  else none

/-- Go `base64.StdEncoding.EncodeToString` on a byte list: 3-byte groups
become 4 alphabet bytes, with `=` (61) padding for a 1- or 2-byte tail. -/
def b64encode : List Nat → List Nat
  | [] => []
  | [a] => [encB (a / 4), encB (a % 4 * 16), 61, 61]
  | [a, b] => [encB (a / 4), encB (a % 4 * 16 + b / 16), encB (b % 16 * 4), 61]
  | a :: b :: c :: rest =>
    encB (a / 4) :: encB (a % 4 * 16 + b / 16) :: encB (b % 16 * 4 + c / 64) ::
      encB (c % 64) :: b64encode rest

/-- Go `base64.StdEncoding.DecodeString` with the error dropped (as the
source drops it): decodes 4-byte quanta; a quantum that is malformed
contributes the bytes Go writes before reporting the error and decoding
stops there. -/
def b64decode : List Nat → List Nat
  | c1 :: c2 :: c3 :: c4 :: rest =>
    match decB c1, decB c2 with
    | some s1, some s2 =>
      if c3 = 61 then
        if c4 = 61 then [s1 * 4 + s2 / 16] else []
      else
        match decB c3 with
        | some s3 =>
          if c4 = 61 then [s1 * 4 + s2 / 16, s2 % 16 * 16 + s3 / 4]
          else
            match decB c4 with
            | some s4 =>
              (s1 * 4 + s2 / 16) :: (s2 % 16 * 16 + s3 / 4) ::
                (s3 % 4 * 64 + s4) :: b64decode rest
            | none => []
        | none => []
    | _, _ => []
  | _ => []

/-- Observable outcome of one run of the BasicAuth inner handler:
`reject challenge` is `http.Error(w, ..., 401)` (with `challenge = true`
exactly when the `WWW-Authenticate: realm=proxy` header was added first),
and `delegate key v` is `h.ServeHTTP(w, r.WithContext(ctx))` after
`ctx := context.WithValue(r.Context(), key, v)`. -/
inductive AuthOutcome where
  | reject (challenge : Bool)
  | delegate (ctxKey : String) (ctxValue : List Nat)
deriving DecidableEq

/-- Body of the handler returned by `BasicAuth(login, password)` in
`main.go`, as a function of the `Authorization` header bytes (`token`).
`none` embeds the runtime panic `index out of range` on `authValues[1]`;
the `&&` of the source short-circuits, so `authValues[1]` is only read
when `authValues[0] != login`. -/
def basicAuthHandle (login password token : List Nat) : Option AuthOutcome :=
  if (splitGo 32 token).length ≠ 2 then
    some (AuthOutcome.reject true)
  else
    match splitGo 58 (b64decode ((splitGo 32 token).getD 1 [])) with
    | [] => none
    | a0 :: rest =>
      if a0 ≠ login then
        match rest with
        | [] => none
        | a1 :: _ =>
          if a1 ≠ password then some (AuthOutcome.reject false)
          else some (AuthOutcome.delegate "Username" login)
      else some (AuthOutcome.delegate "Username" login)

/-- `BasicAuth(login, password)` from `main.go`: `nil` (absent middleware)
when either credential half is empty, otherwise the handler body above. -/
def BasicAuth (login password : List Nat) :
    Option (List Nat → Option AuthOutcome) :=
  if login = [] ∨ password = [] then none
  else some (basicAuthHandle login password)

/-- `Chain(h, mws...)` from `main.go`: iterates `i` from `len(mws)-1` down
to `0` wrapping `h = mws[i](h)` whenever `mws[i] != nil`; the downward loop
is a left fold over the reversed slot list.  The handler type is a type
parameter, as `Chain` uses nothing of `http.Handler` beyond application. -/
def Chain {α : Type} (h : α) (mws : List (Option (α → α))) : α :=
  mws.reverse.foldl
    (fun acc mw => match mw with
      | some m => m acc
      | none => acc) h

/-- A tracing middleware over the trace semantics of handlers
(`List String → List String`, a function from the log so far to the final
log): it appends its tag to the log and passes the request on, like the
`Tracing` example middleware of the repository README. -/
def traceMw (tag : String) :
    (List String → List String) → List String → List String :=
  fun next log => next (log ++ [tag])

/-- The parts of Go's `url.URL` the proxy directors touch. -/
structure URL where
  scheme : List Nat
  host : List Nat
  path : List Nat

/-- The parts of Go's `http.Request` the proxy directors touch: `r.URL`
and the `r.Host` field. -/
structure Request where
  url : URL
  host : List Nat

/-- Go `strings.TrimPrefix(s, pre)`: drops `pre` from the front of `s`
when `s` starts with it, otherwise returns `s` unchanged. -/
def trimPfx (s pre : List Nat) : List Nat :=
  if pre.isPrefixOf s then s.drop pre.length else s

/-- Director of the default (built-in) proxy in `main.go`: rewrites
`r.URL.Scheme`, `r.URL.Host` and `r.Host` to the target's and leaves the
path untouched (the preserved defect). -/
def defaultDirector (target : URL) (r : Request) : Request :=
  { r with
    url := { r.url with scheme := target.scheme, host := target.host },
    host := target.host }

namespace Patches

/-- `Proxy(target, prefix)` from `patches/reverse_proxy.go`: the corrected
director additionally rewrites `r.URL.Path` with
`strings.TrimPrefix(r.URL.Path, prefix)`. -/
def Proxy (target : URL) (pfx : List Nat) : Request → Request :=
  fun r =>
    { r with
      url := { r.url with
               scheme := target.scheme,
               host := target.host,
               path := trimPfx r.url.path pfx },
      host := target.host }

end Patches

/-- A value looked up in a loaded plugin, tagged by its Go type as the
`reflect`-style type assertions of the source see it:
`middlewareFn` is a value of type `func(http.Handler) http.Handler`,
`proxyBuilderFn` a value of type `func(*url.URL, string) http.Handler`
(carrying its director-building behavior), `otherVal` any other type. -/
inductive GoValue where
  | middlewareFn (tag : String)
  | proxyBuilderFn (f : URL → List Nat → Request → Request)
  | otherVal (typeName : String)

/-- The filesystem and plugin runtime the loaders consult: `fileExists`
is `os.Stat(path) == nil`, and `openPlugin` is `plugin.Open` (`none` for
an open failure) composed with per-symbol `Lookup` (`none` for a missing
symbol). -/
structure PluginEnv where
  fileExists : String → Bool
  openPlugin : String → Option (String → Option GoValue)

/-- `LoadPlugin(path, symbol)` from `main.go`: `plugin.Open` then
`Lookup`; either failure is returned as an error (`Except.error`). -/
def LoadPlugin (env : PluginEnv) (path symbolName : String) :
    Except String GoValue :=
  match env.openPlugin path with
  | none => Except.error ("plugin open failed " ++ path)
  | some lookup =>
    match lookup symbolName with
    | none =>
      Except.error ("Can't find '" ++ symbolName ++ "' symbol in plugin " ++ path)
    | some v => Except.ok v

/-- `LoadPatch(component, symbol)` from `main.go`: builds the conventional
path `./patches/<component>.so`; when `os.Stat` finds the file it defers
to `LoadPlugin`, otherwise it returns `(nil, nil)` — absent, no error. -/
def LoadPatch (env : PluginEnv) (component symbolName : String) :
    Except String (Option GoValue) :=
  if env.fileExists ("./patches/" ++ component ++ ".so") then
    (LoadPlugin env ("./patches/" ++ component ++ ".so") symbolName).map some
  else
    Except.ok none

/-- `LoadMiddlewarePlugin(path)` from `main.go`: empty path means absent
middleware (`nil`); otherwise a load failure or a symbol whose type is not
`func(http.Handler) http.Handler` is `log.Fatal` (embedded as
`Except.error`, the process never serves). -/
def LoadMiddlewarePlugin (env : PluginEnv) (path : String) :
    Except String (Option GoValue) :=
  if path = "" then Except.ok none
  else
    match LoadPlugin env path "Middleware" with
    | Except.error e => Except.error ("Can't load plugin " ++ path ++ " " ++ e)
    | Except.ok (GoValue.middlewareFn t) => Except.ok (some (GoValue.middlewareFn t))
    | Except.ok _ =>
      Except.error "'Middleware' function should have func(http.Handler) http.Handler type"

/-- `Proxy(target, prefix)` from `main.go`: consults
`LoadPatch("reverse_proxy", "Proxy")`; an error from it is only logged and
the returned object is `nil`, so the default director is built; a present
object of the wrong shape is `log.Fatal` (`Except.error`); a present
proxy-builder is called with `(target, prefix)` and used in place of the
default. -/
def Proxy (env : PluginEnv) (target : URL) (pfx : List Nat) :
    Except String (Request → Request) :=
  match LoadPatch env "reverse_proxy" "Proxy" with
  | Except.error _ => Except.ok (defaultDirector target)
  | Except.ok none => Except.ok (defaultDirector target)
  | Except.ok (some (GoValue.proxyBuilderFn f)) => Except.ok (f target pfx)
  | Except.ok (some _) => Except.error "Function signature do not match"

theorem decB_encB : ∀ n, n < 64 → decB (encB n) = some n := by decide

theorem encB_ne_61 : ∀ n, n < 64 → encB n ≠ 61 := by decide

theorem encB_ne_32 (n : Nat) : encB n ≠ 32 := by
  unfold encB
  split
  · omega
  split
  · omega
  split
  · omega
  split
  · omega
  · omega

theorem b64encode_not_mem_32 (bs : List Nat) : 32 ∉ b64encode bs := by
  induction bs using b64encode.induct with
  | case1 => simp [b64encode]
  | case2 a =>
    simp only [b64encode, List.mem_cons, List.not_mem_nil]
    push_neg
    exact ⟨(encB_ne_32 _).symm, (encB_ne_32 _).symm, by omega, by omega, not_false⟩
  | case3 a b =>
    simp only [b64encode, List.mem_cons, List.not_mem_nil]
    push_neg
    exact ⟨(encB_ne_32 _).symm, (encB_ne_32 _).symm, (encB_ne_32 _).symm, by omega, not_false⟩
  | case4 a b c rest ih =>
    simp only [b64encode, List.mem_cons]
    push_neg
    exact ⟨(encB_ne_32 _).symm, (encB_ne_32 _).symm, (encB_ne_32 _).symm,
      (encB_ne_32 _).symm, ih⟩

theorem b64_roundtrip (bs : List Nat) (hb : ∀ b ∈ bs, b < 256) :
    b64decode (b64encode bs) = bs := by
  induction bs using b64encode.induct with
  | case1 => rfl
  | case2 a =>
    have ha : a < 256 := hb a (by simp)
    have h1 := decB_encB (a / 4) (by omega)
    have h2 := decB_encB (a % 4 * 16) (by omega)
    simp [b64encode, b64decode, h1, h2]
    omega
  | case3 a b =>
    have ha : a < 256 := hb a (by simp)
    have hbb : b < 256 := hb b (by simp)
    have h1 := decB_encB (a / 4) (by omega)
    have h2 := decB_encB (a % 4 * 16 + b / 16) (by omega)
    have h3 := decB_encB (b % 16 * 4) (by omega)
    have h3ne := encB_ne_61 (b % 16 * 4) (by omega)
    simp [b64encode, b64decode, h1, h2, h3, h3ne]
    omega
  | case4 a b c rest ih =>
    have ha : a < 256 := hb a (by simp)
    have hbb : b < 256 := hb b (by simp)
    have hc : c < 256 := hb c (by simp)
    have hrest : ∀ x ∈ rest, x < 256 := fun x hx => hb x (by simp [hx])
    have h1 := decB_encB (a / 4) (by omega)
    have h2 := decB_encB (a % 4 * 16 + b / 16) (by omega)
    have h3 := decB_encB (b % 16 * 4 + c / 64) (by omega)
    have h4 := decB_encB (c % 64) (by omega)
    have h3ne := encB_ne_61 (b % 16 * 4 + c / 64) (by omega)
    have h4ne := encB_ne_61 (c % 64) (by omega)
    simp [b64encode, b64decode, h1, h2, h3, h4, h3ne, h4ne, ih hrest]
    omega

theorem splitGo_ne_nil (sep : Nat) (s : List Nat) : splitGo sep s ≠ [] := by
  cases s with
  | nil => simp [splitGo]
  | cons c rest =>
    rcases h : splitGo sep rest with _ | ⟨t, ts⟩
    · simp [splitGo, h]
    · simp only [splitGo, h]
      split <;> simp

theorem splitGo_not_mem (sep : Nat) (s : List Nat) (h : sep ∉ s) :
    splitGo sep s = [s] := by
  induction s with
  | nil => rfl
  | cons c rest ih =>
    have hc : c ≠ sep := by
      intro hc
      exact h (by simp [hc])
    have hr : sep ∉ rest := fun hm => h (by simp [hm])
    simp only [splitGo, ih hr, if_neg hc]

theorem splitGo_append (sep : Nat) (u v : List Nat) (h : sep ∉ u) :
    splitGo sep (u ++ sep :: v) = u :: splitGo sep v := by
  induction u with
  | nil =>
    simp only [List.nil_append, splitGo]
    rcases hv : splitGo sep v with _ | ⟨t, ts⟩
    · exact absurd hv (splitGo_ne_nil sep v)
    · simp
  | cons c rest ih =>
    have hc : c ≠ sep := by
      intro hc
      exact h (by simp [hc])
    have hr : sep ∉ rest := fun hm => h (by simp [hm])
    simp only [List.cons_append, splitGo, List.append_eq, ih hr, if_neg hc]

theorem Chain_nil {α : Type} (h : α) : Chain h [] = h := rfl

theorem Chain_cons {α : Type} (h : α) (x : Option (α → α))
    (rest : List (Option (α → α))) :
    Chain h (x :: rest) =
      (match x with
       | some m => m (Chain h rest)
       | none => Chain h rest) := by
  simp only [Chain, List.reverse_cons, List.foldl_append, List.foldl_cons,
    List.foldl_nil]

/-- Claim C4: `Chain` wraps middleware from the last declared slot inward,
so the first-declared present middleware is outermost; a request's
traversal order (witnessed by the trace semantics) equals the declaration
order of the present slots; `nil` slots are skipped without affecting the
composition of the remaining slots. -/
theorem chain_declaration_order :
    (∀ (α : Type) (h : α) (m : α → α) (rest : List (Option (α → α))),
      Chain h (some m :: rest) = m (Chain h rest)) ∧
    (∀ (α : Type) (h : α) (rest : List (Option (α → α))),
      Chain h (none :: rest) = Chain h rest) ∧
    (∀ (h : List String → List String) (slots : List (Option String))
      (log : List String),
      Chain h (slots.map (fun s => s.map traceMw)) log =
        h (log ++ slots.reduceOption)) := by
  refine ⟨fun α h m rest => by rw [Chain_cons],
          fun α h rest => by rw [Chain_cons],
          fun h slots => ?_⟩
  induction slots with
  | nil => intro log; simp [Chain]
  | cons s rest ih =>
    intro log
    cases s with
    | none => simp [Chain_cons, ih]
    | some tag => simp [Chain_cons, traceMw, ih]

/-- Claim C5: composing the pipeline with an absent (`nil`) slot at any
position yields the same handler as composing with that slot removed from
the sequence entirely. -/
theorem chain_remove_nil_slot (α : Type) (h : α)
    (xs ys : List (Option (α → α))) :
    Chain h (xs ++ none :: ys) = Chain h (xs ++ ys) := by
  induction xs with
  | nil =>
    rw [List.nil_append, List.nil_append, Chain_cons]
  | cons x rest ih =>
    rw [List.cons_append, List.cons_append, Chain_cons, Chain_cons, ih]

theorem basicAuthHandle_two (login password token : List Nat)
    (h2 : (splitGo 32 token).length = 2) :
    basicAuthHandle login password token =
      match splitGo 58 (b64decode ((splitGo 32 token).getD 1 [])) with
      | [] => none
      | a0 :: rest =>
        if a0 ≠ login then
          match rest with
          | [] => none
          | a1 :: _ =>
            if a1 ≠ password then some (AuthOutcome.reject false)
            else some (AuthOutcome.delegate "Username" login)
        else some (AuthOutcome.delegate "Username" login) := by
  unfold basicAuthHandle
  split
  · next hne => exact absurd h2 hne
  · rfl

/-- Claim C1: with a configured non-empty credential pair and an
Authorization header of exactly two space-separated tokens, the stage
rejects with 401 only when the first decoded credential field differs
from `login` and the second differs from `password`; if at least one
field matches its configured counterpart, the stage delegates to the
wrapped handler (the preserved AND-of-mismatches defect). -/
theorem basicAuth_and_defect (login password token : List Nat)
    (hl : login ≠ []) (hp : password ≠ [])
    (h2 : (splitGo 32 token).length = 2) :
    (∀ ch, basicAuthHandle login password token =
        some (AuthOutcome.reject ch) →
      (splitGo 58 (b64decode ((splitGo 32 token).getD 1 []))).getD 0 [] ≠
          login ∧
      ∀ w, (splitGo 58 (b64decode ((splitGo 32 token).getD 1 []))).get? 1 =
          some w → w ≠ password) ∧
    (((splitGo 58 (b64decode ((splitGo 32 token).getD 1 []))).getD 0 [] =
        login ∨
      (splitGo 58 (b64decode ((splitGo 32 token).getD 1 []))).get? 1 =
        some password) →
      basicAuthHandle login password token =
        some (AuthOutcome.delegate "Username" login)) := by
  rw [basicAuthHandle_two login password token h2]
  rcases hf : splitGo 58 (b64decode ((splitGo 32 token).getD 1 [])) with
    _ | ⟨a0, rest⟩
  · exact absurd hf (splitGo_ne_nil _ _)
  by_cases ha0 : a0 = login
  · refine ⟨fun ch hch => ?_, fun _ => by simp [ha0]⟩
    simp [ha0] at hch
  · rcases rest with _ | ⟨a1, rest2⟩
    · refine ⟨fun ch hch => ?_, fun hor => ?_⟩
      · simp [ha0] at hch
      · rcases hor with hx | hx
        · simp at hx
          exact absurd hx ha0
        · simp at hx
    · by_cases ha1 : a1 = password
      · refine ⟨fun ch hch => ?_, fun _ => by simp [ha0, ha1]⟩
        simp [ha0, ha1] at hch
      · refine ⟨fun ch hch => ⟨by simp [ha0], ?_⟩, fun hor => ?_⟩
        · intro w hw
          simp at hw
          exact hw ▸ ha1
        · rcases hor with hx | hx
          · simp at hx
            exact absurd hx ha0
          · simp at hx
            exact absurd hx ha1

theorem basicAuth_and_defect_witness :
    basicAuthHandle (strBytes "user") (strBytes "pass")
      (strBytes "Basic " ++ b64encode (strBytes "user:nope")) =
      some (AuthOutcome.delegate "Username" (strBytes "user")) :=
  (basicAuth_and_defect (strBytes "user") (strBytes "pass")
    (strBytes "Basic " ++ b64encode (strBytes "user:nope"))
    (by decide) (by decide) (by decide)).2 (Or.inl (by decide))

/-- Claim C3 counterexample: the Authorization header
`Basic base64("user")` has exactly two space-separated tokens and its
decoded payload contains no colon, yet with credentials
(`user`, `pass`) the stage delegates to the wrapped handler instead of
returning 401. -/
theorem basicAuth_missing_colon_delegates :
    (splitGo 32 (strBytes "Basic " ++ b64encode (strBytes "user"))).length =
      2 ∧
    (∀ b ∈ b64decode ((splitGo 32 (strBytes "Basic " ++
        b64encode (strBytes "user"))).getD 1 []), b ≠ 58) ∧
    basicAuthHandle (strBytes "user") (strBytes "pass")
      (strBytes "Basic " ++ b64encode (strBytes "user")) =
      some (AuthOutcome.delegate "Username" (strBytes "user")) := by decide

/-- Claim C3 (amended): with a configured non-empty credential pair, a
request whose Authorization header does not consist of exactly two
space-separated tokens is rejected with 401 (with the challenge header)
and the wrapped handler is not invoked.  (The missing-colon case of the
original claim is dropped: there the stage delegates or panics, see the
counterexample.) -/
theorem basicAuth_malformed_header_rejects (login password token : List Nat)
    (hl : login ≠ []) (hp : password ≠ [])
    (h : (splitGo 32 token).length ≠ 2) :
    basicAuthHandle login password token = some (AuthOutcome.reject true) := by
  simp [basicAuthHandle, h]

theorem basicAuth_malformed_header_rejects_witness :
    basicAuthHandle (strBytes "user") (strBytes "pass")
      (strBytes "nospace") = some (AuthOutcome.reject true) :=
  basicAuth_malformed_header_rejects (strBytes "user") (strBytes "pass")
    (strBytes "nospace") (by decide) (by decide) (by decide)

/-- Claim C6: with credential pair (`u`, `p`) configured (non-empty,
`u` colon-free, bytes, as Go strings are) and a request carrying
`Authorization: Basic base64("u:p")`, the stage delegates to the wrapped
handler and publishes `u` into the request context under the fixed key
`"Username"`. -/
theorem basicAuth_success_publishes (u p : List Nat)
    (hu : u ≠ []) (hp : p ≠ [])
    (hub : ∀ b ∈ u, b < 256) (hpb : ∀ b ∈ p, b < 256)
    (hcolon : 58 ∉ u) :
    basicAuthHandle u p (strBytes "Basic " ++ b64encode (u ++ 58 :: p)) =
      some (AuthOutcome.delegate "Username" u) := by
  have henc32 := b64encode_not_mem_32 (u ++ 58 :: p)
  have htok : strBytes "Basic " ++ b64encode (u ++ 58 :: p) =
      [66, 97, 115, 105, 99] ++ 32 :: b64encode (u ++ 58 :: p) := rfl
  have hsplit : splitGo 32 (strBytes "Basic " ++ b64encode (u ++ 58 :: p)) =
      [[66, 97, 115, 105, 99], b64encode (u ++ 58 :: p)] := by
    rw [htok, splitGo_append 32 [66, 97, 115, 105, 99] _ (by decide),
      splitGo_not_mem 32 _ henc32]
  have hbytes : ∀ b ∈ u ++ 58 :: p, b < 256 := by
    intro b hbmem
    rcases List.mem_append.mp hbmem with hx | hx
    · exact hub b hx
    · rcases List.mem_cons.mp hx with hx | hx
      · omega
      · exact hpb b hx
  have hdec : b64decode (b64encode (u ++ 58 :: p)) = u ++ 58 :: p :=
    b64_roundtrip _ hbytes
  have hfields : splitGo 58 (u ++ 58 :: p) = u :: splitGo 58 p :=
    splitGo_append 58 u p hcolon
  have h2 : (splitGo 32 (strBytes "Basic " ++
      b64encode (u ++ 58 :: p))).length = 2 := by
    rw [hsplit]
    rfl
  rw [basicAuthHandle_two _ _ _ h2, hsplit]
  simp [hdec, hfields]

theorem basicAuth_success_publishes_witness :
    basicAuthHandle (strBytes "user") (strBytes "pass")
      (strBytes "Basic " ++
        b64encode (strBytes "user" ++ 58 :: strBytes "pass")) =
      some (AuthOutcome.delegate "Username" (strBytes "user")) :=
  basicAuth_success_publishes (strBytes "user") (strBytes "pass")
    (by decide) (by decide) (by decide) (by decide) (by decide)

/-- Claim C7 counterexample: a credential-mismatch failure (both decoded
fields wrong) yields the 401 with `challenge = false` — no
`WWW-Authenticate` header is added on that branch, contradicting the
claim that every authentication failure's response carries it. -/
theorem basicAuth_mismatch_lacks_challenge :
    basicAuthHandle (strBytes "user") (strBytes "pass")
      (strBytes "Basic " ++ b64encode (strBytes "bad:wrong")) =
      some (AuthOutcome.reject false) := by decide

/-- Claim C7 (amended): every authentication failure terminates the
request with a 401-equivalent response without reaching the wrapped
handler, but the response carries the `WWW-Authenticate` challenge
header exactly when the failure is a missing/malformed header (not two
space-separated tokens); a credential-mismatch 401 carries no challenge
header. -/
theorem basicAuth_challenge_only_when_malformed
    (login password token : List Nat) (ch : Bool)
    (hl : login ≠ []) (hp : password ≠ [])
    (h : basicAuthHandle login password token =
      some (AuthOutcome.reject ch)) :
    (ch = true ↔ (splitGo 32 token).length ≠ 2) := by
  by_cases h2 : (splitGo 32 token).length = 2
  · rw [basicAuthHandle_two login password token h2] at h
    rcases hf : splitGo 58 (b64decode ((splitGo 32 token).getD 1 [])) with
      _ | ⟨a0, rest⟩
    · exact absurd hf (splitGo_ne_nil _ _)
    rw [hf] at h
    by_cases ha0 : a0 = login
    · simp [ha0] at h
    · rcases rest with _ | ⟨a1, rest2⟩
      · simp [ha0] at h
      · by_cases ha1 : a1 = password
        · simp [ha0, ha1] at h
        · simp [ha0, ha1] at h
          simp [h2, ← h]
  · simp [basicAuthHandle, h2] at h
    simp [h2, ← h]

theorem basicAuth_challenge_only_when_malformed_witness :
    (false = true ↔
      (splitGo 32 (strBytes "Basic " ++
        b64encode (strBytes "bad:wrong"))).length ≠ 2) :=
  basicAuth_challenge_only_when_malformed (strBytes "user")
    (strBytes "pass")
    (strBytes "Basic " ++ b64encode (strBytes "bad:wrong")) false
    (by decide) (by decide) (by decide)

/-- Claim C10: with a configured non-empty credential pair and an
Authorization header of exactly two space-separated tokens, if the first
colon-separated field of the decoded payload equals `login` the stage
delegates without examining the password field at all — the result is the
same for every configured password, and in particular no index-out-of-
range panic occurs when the decoded payload has no colon, thanks to the
short-circuit of `&&`. -/
theorem basicAuth_shortcircuit_first_field (login password token : List Nat)
    (hl : login ≠ []) (hp : password ≠ [])
    (h2 : (splitGo 32 token).length = 2)
    (hfirst : (splitGo 58 (b64decode ((splitGo 32 token).getD 1 []))).getD
      0 [] = login) :
    basicAuthHandle login password token =
      some (AuthOutcome.delegate "Username" login) ∧
    ∀ q : List Nat, basicAuthHandle login q token =
      basicAuthHandle login password token := by
  rcases hf : splitGo 58 (b64decode ((splitGo 32 token).getD 1 [])) with
    _ | ⟨a0, rest⟩
  · exact absurd hf (splitGo_ne_nil _ _)
  · rw [hf] at hfirst
    simp at hfirst
    constructor
    · rw [basicAuthHandle_two login password token h2, hf]
      simp [hfirst]
    · intro q
      rw [basicAuthHandle_two login q token h2,
        basicAuthHandle_two login password token h2, hf]
      simp [hfirst]

theorem basicAuth_shortcircuit_first_field_witness :
    basicAuthHandle (strBytes "user") (strBytes "secret")
      (strBytes "Basic " ++ b64encode (strBytes "user")) =
      some (AuthOutcome.delegate "Username" (strBytes "user")) := by
  have h := basicAuth_shortcircuit_first_field (strBytes "user")
    (strBytes "pass") (strBytes "Basic " ++ b64encode (strBytes "user"))
    (by decide) (by decide) (by decide) (by decide)
  exact (h.2 (strBytes "secret")).trans h.1

/-- Claim C2: with the corrected proxy override active, the forwarded
path is the inbound path with the configured prefix stripped
(`strings.TrimPrefix`); with no override active (no backing patch file),
`Proxy` builds the default director, which rewrites only scheme and host
and forwards the inbound path unmodified (the preserved defect). -/
theorem proxy_path_rewrite :
    (∀ (target : URL) (pfx : List Nat) (r : Request),
      (Patches.Proxy target pfx r).url.path = trimPfx r.url.path pfx ∧
      (Patches.Proxy target pfx r).url.scheme = target.scheme ∧
      (Patches.Proxy target pfx r).url.host = target.host) ∧
    (∀ (env : PluginEnv) (target : URL) (pfx : List Nat)
      (lookup : String → Option GoValue)
      (f : URL → List Nat → Request → Request),
      env.fileExists "./patches/reverse_proxy.so" = true →
      env.openPlugin "./patches/reverse_proxy.so" = some lookup →
      lookup "Proxy" = some (GoValue.proxyBuilderFn f) →
      Proxy env target pfx = Except.ok (f target pfx)) ∧
    (∀ (env : PluginEnv) (target : URL) (pfx : List Nat),
      env.fileExists "./patches/reverse_proxy.so" = false →
      Proxy env target pfx = Except.ok (defaultDirector target)) ∧
    (∀ (target : URL) (r : Request),
      (defaultDirector target r).url.path = r.url.path ∧
      (defaultDirector target r).url.scheme = target.scheme ∧
      (defaultDirector target r).url.host = target.host ∧
      (defaultDirector target r).host = target.host) := by
  refine ⟨fun target pfx r => ⟨rfl, rfl, rfl⟩,
          fun env target pfx lookup f hfe hop hlk => ?_,
          fun env target pfx hfe => ?_,
          fun target r => ⟨rfl, rfl, rfl, rfl⟩⟩
  · simp [Proxy, LoadPatch, LoadPlugin, Except.map, hfe, hop, hlk]
  · simp [Proxy, LoadPatch, hfe]

theorem proxy_path_rewrite_witness :
    (Patches.Proxy
        (URL.mk (strBytes "https") (strBytes "httpbin.org") [])
        (strBytes "/prefix")
        (Request.mk
          (URL.mk (strBytes "http") (strBytes "localhost")
            (strBytes "/prefix/get"))
          (strBytes "localhost"))).url.path = strBytes "/get" ∧
    Proxy (PluginEnv.mk (fun _ => false) (fun _ => none))
        (URL.mk (strBytes "https") (strBytes "httpbin.org") [])
        (strBytes "/prefix") =
      Except.ok (defaultDirector
        (URL.mk (strBytes "https") (strBytes "httpbin.org") [])) ∧
    (defaultDirector (URL.mk (strBytes "https") (strBytes "httpbin.org") [])
        (Request.mk
          (URL.mk (strBytes "http") (strBytes "localhost")
            (strBytes "/prefix/get"))
          (strBytes "localhost"))).url.path = strBytes "/prefix/get" := by
  have h := proxy_path_rewrite
  refine ⟨?_, h.2.2.1 _ _ _ rfl, ?_⟩
  · rw [(h.1 _ _ _).1]
    decide
  · exact (h.2.2.2 _ _).1

/-- Claim C8: when no backing file exists at the conventional path
`./patches/<component>.so`, `LoadPatch` returns absent (`nil`) with no
error, and the caller (`Proxy`) falls back to the default built-in
director. -/
theorem loadpatch_absent_fallback (env : PluginEnv)
    (component symbolName : String)
    (h : env.fileExists ("./patches/" ++ component ++ ".so") = false) :
    LoadPatch env component symbolName = Except.ok none ∧
    (∀ (target : URL) (pfx : List Nat), component = "reverse_proxy" →
      Proxy env target pfx = Except.ok (defaultDirector target)) := by
  refine ⟨by simp [LoadPatch, h], fun target pfx hc => ?_⟩
  subst hc
  have h2 : env.fileExists "./patches/reverse_proxy.so" = false := h
  simp [Proxy, LoadPatch, h2]

theorem loadpatch_absent_fallback_witness :
    LoadPatch (PluginEnv.mk (fun _ => false) (fun _ => none))
      "reverse_proxy" "Proxy" = Except.ok none ∧
    Proxy (PluginEnv.mk (fun _ => false) (fun _ => none))
      (URL.mk [] [] []) [] =
      Except.ok (defaultDirector (URL.mk [] [] [])) := by
  have h := loadpatch_absent_fallback
    (PluginEnv.mk (fun _ => false) (fun _ => none)) "reverse_proxy"
    "Proxy" rfl
  exact ⟨h.1, h.2 _ _ rfl⟩

/-- Claim C9: `LoadMiddlewarePlugin` with an empty configuration path
yields absent (`nil`) middleware; with a non-empty path, a plugin that
fails to load or lacks the `Middleware` entry point, or an entry point
whose type is not `func(http.Handler) http.Handler`, is a fatal error
(the process never serves); a well-shaped entry point is returned. -/
theorem loadmiddleware_empty_or_fatal (env : PluginEnv) (path : String) :
    (path = "" → LoadMiddlewarePlugin env path = Except.ok none) ∧
    (path ≠ "" → ∀ e, LoadPlugin env path "Middleware" = Except.error e →
      ∃ msg, LoadMiddlewarePlugin env path = Except.error msg) ∧
    (path ≠ "" → ∀ v, LoadPlugin env path "Middleware" = Except.ok v →
      (∀ t, v ≠ GoValue.middlewareFn t) →
      ∃ msg, LoadMiddlewarePlugin env path = Except.error msg) ∧
    (path ≠ "" → ∀ t, LoadPlugin env path "Middleware" =
        Except.ok (GoValue.middlewareFn t) →
      LoadMiddlewarePlugin env path =
        Except.ok (some (GoValue.middlewareFn t))) := by
  refine ⟨fun hp => by simp [LoadMiddlewarePlugin, hp],
          fun hp e he => ?_, fun hp v hv hshape => ?_, fun hp t ht => ?_⟩
  · refine ⟨"Can't load plugin " ++ path ++ " " ++ e, ?_⟩
    simp [LoadMiddlewarePlugin, hp, he]
  · cases v with
    | middlewareFn t => exact absurd rfl (hshape t)
    | proxyBuilderFn f =>
      refine ⟨"'Middleware' function should have func(http.Handler) http.Handler type", ?_⟩
      simp [LoadMiddlewarePlugin, hp, hv]
    | otherVal s =>
      refine ⟨"'Middleware' function should have func(http.Handler) http.Handler type", ?_⟩
      simp [LoadMiddlewarePlugin, hp, hv]
  · simp [LoadMiddlewarePlugin, hp, ht]

theorem loadmiddleware_empty_or_fatal_witness :
    LoadMiddlewarePlugin (PluginEnv.mk (fun _ => false) (fun _ => none))
      "" = Except.ok none ∧
    ∃ msg, LoadMiddlewarePlugin
      (PluginEnv.mk (fun _ => false) (fun _ => none)) "p.so" =
      Except.error msg := by
  refine ⟨(loadmiddleware_empty_or_fatal
    (PluginEnv.mk (fun _ => false) (fun _ => none)) "").1 rfl, ?_⟩
  exact (loadmiddleware_empty_or_fatal
    (PluginEnv.mk (fun _ => false) (fun _ => none)) "p.so").2.1
    (by decide) ("plugin open failed " ++ "p.so") rfl
